import Mathlib

/-! # Field node firmware: media capture and persistence loop

A shallow embedding of `main/main.c`: the WAV header writer, the audio
streaming loop of `record_and_save_wav`, the image step
`capture_and_save_jpeg` and the scheduler loop of `app_main`.

Conventions of the embedding.

* `uint32_t` and `size_t` (32 bits on the ESP32-S3) are `Nat` with an explicit
  `% 2 ^ 32` where the C arithmetic can wrap.
* `esp_err_t` is `Int`, with `ESP_OK = 0` and `ESP_FAIL = -1`.
* Bytes are `Nat`s; a file is its byte sequence together with the stream
  position.
* Everything the hardware or the storage decides (what a stream read delivers,
  how many bytes `fwrite` reports, whether `fopen` succeeds) is a field of an
  explicit environment record, so that theorems quantify over every run.
* The `while` loop of `record_and_save_wav` takes a fuel argument; the state it
  returns says whether the loop was left.
-/

namespace FieldNode

/-! ## Constants -/

/-- The success code of `esp_err_t`. -/
def ESP_OK : Int := 0

/-- The generic failure code of `esp_err_t`. -/
def ESP_FAIL : Int := -1

/-- Microphone sample rate, `#define MIC_SAMPLE_RATE_HZ 16000`. -/
def MIC_SAMPLE_RATE_HZ : Nat := 16000

/-- Sample depth in bits, `#define MIC_BITS_PER_SAMPLE 16`. -/
def MIC_BITS_PER_SAMPLE : Nat := 16

/-- Channel count, `#define MIC_CHANNELS 1`. -/
def MIC_CHANNELS : Nat := 1

/-- The modulus of `uint32_t` arithmetic. -/
def U32 : Nat := 2 ^ 32

/-! ## Files -/

/-- A stdio stream opened for writing: the bytes of the file and the stream
position. Every seek of the program goes to offset 0 and every write advances
the position by what it stored, so the position never passes the end. -/
structure FILE where
  data : List Nat
  pos : Nat
deriving DecidableEq, Repr

/-- The stream `fopen(path, "wb")` yields on success: a truncated file. -/
def fopen_wb : FILE := { data := [], pos := 0 }

/-- The call `fseek(f, off, SEEK_SET)`. -/
def fseek_set (f : FILE) (off : Nat) : FILE := { f with pos := off }

/-- The effect on the stream of `fwrite(buf, 1, n, f)` when the call reports
`w` bytes written: the first `w` bytes of `buf` are stored at the stream
position, over what was there, and the position advances past them. -/
def fwrite (f : FILE) (buf : List Nat) (w : Nat) : FILE :=
  { data := f.data.take f.pos ++ buf.take w ++ f.data.drop (f.pos + (buf.take w).length)
    pos := f.pos + (buf.take w).length }

/-! ## The WAV header -/

/-- The bytes of an ASCII string. -/
def ascii (s : String) : List Nat := s.toList.map Char.toNat

/-- The two bytes of a `uint16_t` in memory (the target is little-endian). -/
def le16 (n : Nat) : List Nat := [n % 256, n / 256 % 256]

/-- The four bytes of a `uint32_t` in memory (the target is little-endian). -/
def le32 (n : Nat) : List Nat :=
  [n % 256, n / 256 % 256, n / 65536 % 256, n / 16777216 % 256]

/-- Reads back a little-endian 16-bit field at the head of a byte list. -/
def rd16 (bs : List Nat) : Nat := bs.getD 0 0 + 256 * bs.getD 1 0

/-- Reads back a little-endian 32-bit field at the head of a byte list. -/
def rd32 (bs : List Nat) : Nat :=
  bs.getD 0 0 + 256 * bs.getD 1 0 + 65536 * bs.getD 2 0 + 16777216 * bs.getD 3 0

/-- The packed struct `wav_header_t`. -/
structure wav_header_t where
  riff_id : List Nat
  riff_size : Nat
  wave_id : List Nat
  fmt_id : List Nat
  fmt_size : Nat
  audio_format : Nat
  num_channels : Nat
  sample_rate : Nat
  byte_rate : Nat
  block_align : Nat
  bits_per_sample : Nat
  data_id : List Nat
  data_size : Nat
deriving DecidableEq, Repr

/-- The object representation of a `wav_header_t`: the struct is packed, so the
fields follow one another without padding, each integer little-endian. -/
def wav_header_t.bytes (h : wav_header_t) : List Nat :=
  h.riff_id ++ le32 h.riff_size ++ h.wave_id ++ h.fmt_id ++ le32 h.fmt_size ++
  le16 h.audio_format ++ le16 h.num_channels ++ le32 h.sample_rate ++
  le32 h.byte_rate ++ le16 h.block_align ++ le16 h.bits_per_sample ++
  h.data_id ++ le32 h.data_size

/-- The initialiser of `hdr` in `write_wav_header`; `36 + data_bytes` is
`uint32_t` arithmetic. -/
def wav_header_init (data_bytes : Nat) : wav_header_t :=
  { riff_id := ascii "RIFF"
    riff_size := (36 + data_bytes) % U32
    wave_id := ascii "WAVE"
    fmt_id := ascii "fmt "
    fmt_size := 16
    audio_format := 1
    num_channels := MIC_CHANNELS
    sample_rate := MIC_SAMPLE_RATE_HZ
    byte_rate := MIC_SAMPLE_RATE_HZ * MIC_CHANNELS * (MIC_BITS_PER_SAMPLE / 8)
    block_align := MIC_CHANNELS * (MIC_BITS_PER_SAMPLE / 8)
    bits_per_sample := MIC_BITS_PER_SAMPLE
    data_id := ascii "data"
    data_size := data_bytes }

/-- The function `write_wav_header(f, data_bytes)`: seek to offset 0 and write
the `sizeof(hdr)` bytes of the header. The return value of that `fwrite` is
ignored by the code; `w` is what the call reports. -/
def write_wav_header (f : FILE) (data_bytes : Nat) (w : Nat) : FILE :=
  fwrite (fseek_set f 0) (wav_header_init data_bytes).bytes w

/-- The `riff_size` field of the header at the start of a file. -/
def riff_size_field (bs : List Nat) : Nat := rd32 (bs.drop 4)

/-- The `data_size` field of the header at the start of a file. -/
def data_size_field (bs : List Nat) : Nat := rd32 (bs.drop 40)

/-- The sample count a reader of the container derives from the header:
payload bytes over the block align stored at offset 32. -/
def declared_samples (bs : List Nat) : Nat := data_size_field bs / rd16 (bs.drop 32)

/-- The byte budget of `record_and_save_wav`:
`bytes_per_sample = (MIC_BITS_PER_SAMPLE / 8) * MIC_CHANNELS` and
`total_bytes = (MIC_SAMPLE_RATE_HZ * bytes_per_sample * duration_ms) / 1000`,
the product being `uint32_t` arithmetic. -/
def bytes_per_sample : Nat := (MIC_BITS_PER_SAMPLE / 8) * MIC_CHANNELS

/-- The constant `total_bytes` of `record_and_save_wav`. -/
def total_bytes (duration_ms : Nat) : Nat :=
  (MIC_SAMPLE_RATE_HZ * bytes_per_sample * duration_ms) % U32 / 1000

/-- The size of `int16_t buffer[512]`. -/
def buffer_bytes : Nat := 512 * 2

/-! ## Audio capture -/

/-- Everything outside `record_and_save_wav` that decides one invocation. -/
structure AudioEnv where
  /-- whether `mic_rx_handle` is non-null -/
  mic_ready : Bool
  /-- whether `fopen(path, "wb")` yields a stream -/
  fopen_ok : Bool
  /-- what the `fwrite` of the `k`-th `write_wav_header` call reports -/
  hdr_fwrite : Nat → Nat
  /-- the return value of `i2s_channel_enable` -/
  i2s_channel_enable : Int
  /-- the stream read of iteration `i` asked for `n` bytes: its return code and
  the bytes it stored in `buffer`, whose count is `bytes_read` -/
  i2s_channel_read : Nat → Nat → Int × List Nat
  /-- what the payload `fwrite` of iteration `i`, offered `n` bytes, reports -/
  fwrite_ret : Nat → Nat → Nat

/-- The variables of the streaming loop, with the iteration count, the error
log and a flag telling that control has left the `while`. -/
structure WavLoop where
  f : FILE
  ret : Int
  bytes_written : Nat
  iter : Nat
  log : List String
  exited : Bool
deriving DecidableEq, Repr

/-- The local `bytes_to_read` of the loop body: the buffer size, clipped to
what is left of the budget. -/
def bytes_to_read (total bytes_written : Nat) : Nat :=
  if total - bytes_written < buffer_bytes then total - bytes_written else buffer_bytes

/-- One pass through the body of the loop
`while (bytes_written < total_bytes) { ... }` of `record_and_save_wav`;
`exited` is set when the pass ends in `break`. -/
def stream_body (e : AudioEnv) (total : Nat) (s : WavLoop) : WavLoop :=
  let rd := e.i2s_channel_read s.iter (bytes_to_read total s.bytes_written)
  let bytes_read := rd.2.length
  if rd.1 ≠ ESP_OK then
    { s with ret := rd.1, iter := s.iter + 1,
             log := s.log ++ ["I2S read failed"], exited := true }
  else
    let w := e.fwrite_ret s.iter bytes_read
    let f := fwrite s.f rd.2 w
    let bytes_written := (s.bytes_written + w) % U32
    if w ≠ bytes_read then
      { f := f, ret := ESP_FAIL, bytes_written := bytes_written, iter := s.iter + 1,
        log := s.log ++ ["Audio write failed"], exited := true }
    else
      { f := f, ret := rd.1, bytes_written := bytes_written, iter := s.iter + 1,
        log := s.log, exited := false }

/-- The loop `while (bytes_written < total_bytes) { ... }`, run for at most
`fuel` passes through its body. When the fuel is used up and the loop condition
still holds, the current state is returned, `exited` still false. -/
def stream_loop (e : AudioEnv) (total : Nat) : Nat → WavLoop → WavLoop
  | 0, s => if s.bytes_written < total then s else { s with exited := true }
  | fuel + 1, s =>
    if s.bytes_written < total then
      let s1 := stream_body e total s
      if s1.exited then s1 else stream_loop e total fuel s1
    else { s with exited := true }

/-- The C library call `snprintf(dst, size, "%s", s)`: at most `size - 1`
characters are stored. -/
def snprintf (size : Nat) (s : String) : String := String.mk (s.toList.take (size - 1))

/-- What one invocation of `record_and_save_wav` leaves behind. -/
structure WavResult where
  ret : Int
  /-- the path opened, when the function got that far -/
  path : Option String
  /-- the file as closed, when it was opened -/
  file : Option FILE
  /-- the final value of `bytes_written` (0 when the loop was not reached) -/
  bytes_written : Nat
  /-- iterations of the streaming loop that were begun -/
  iterations : Nat
  log : List String
deriving DecidableEq, Repr

/-- The state in which `record_and_save_wav` enters its loop. -/
def stream_init (f : FILE) (ret : Int) : WavLoop :=
  { f := f, ret := ret, bytes_written := 0, iter := 0, log := [], exited := false }

/-- The function `record_and_save_wav(filename, duration_ms)`. The result is
`none` when the streaming loop has not been left within `fuel` iterations. -/
def record_and_save_wav (e : AudioEnv) (fuel : Nat) (filename : String)
    (duration_ms : Nat) : Option WavResult :=
  if !e.mic_ready then
    some { ret := ESP_FAIL, path := none, file := none, bytes_written := 0,
           iterations := 0, log := ["Mic not initialized"] }
  else
    let path := snprintf 64 ("/sdcard/" ++ filename)
    if !e.fopen_ok then
      some { ret := ESP_FAIL, path := some path, file := none, bytes_written := 0,
             iterations := 0, log := ["Failed to open audio file for writing"] }
    else
      let f := write_wav_header fopen_wb 0 (e.hdr_fwrite 0)
      let ret := e.i2s_channel_enable
      if ret ≠ ESP_OK then
        some { ret := ret, path := some path, file := some f, bytes_written := 0,
               iterations := 0, log := ["Failed to enable I2S RX"] }
      else
        let s := stream_loop e (total_bytes duration_ms) fuel (stream_init f ret)
        if !s.exited then none
        else
          let f := if s.ret = ESP_OK then write_wav_header s.f s.bytes_written (e.hdr_fwrite 1)
                   else s.f
          some { ret := s.ret, path := some path, file := some f,
                 bytes_written := s.bytes_written, iterations := s.iter, log := s.log }

/-- An environment in which every call does all it is asked: reads deliver the
requested number of zero bytes and writes store everything. -/
def envGood : AudioEnv :=
  { mic_ready := true, fopen_ok := true, hdr_fwrite := fun _ => 44,
    i2s_channel_enable := ESP_OK,
    i2s_channel_read := fun _ n => (ESP_OK, List.replicate n 0),
    fwrite_ret := fun _ n => n }

/-- An environment whose first read delivers four bytes of which the storage
takes two. -/
def envShort : AudioEnv :=
  { envGood with
    i2s_channel_read := fun _ _ => (ESP_OK, [1, 2, 3, 4]),
    fwrite_ret := fun i n => if i = 0 then 2 else n }

/-- An environment whose reads succeed and deliver nothing. -/
def envStall : AudioEnv :=
  { envGood with i2s_channel_read := fun _ _ => (ESP_OK, []) }

/-! ## Image capture -/

/-- The pixel formats of the camera driver (`pixformat_t` of `esp_camera.h`). -/
inductive pixformat_t where
  | PIXFORMAT_RGB565
  | PIXFORMAT_YUV422
  | PIXFORMAT_YUV420
  | PIXFORMAT_GRAYSCALE
  | PIXFORMAT_JPEG
  | PIXFORMAT_RGB888
  | PIXFORMAT_RAW
  | PIXFORMAT_RGB444
  | PIXFORMAT_RGB555
deriving DecidableEq, Repr

open pixformat_t

/-- The frame buffer descriptor `camera_fb_t` of the camera driver: the pixel
bytes at `buf`, their count `len`, the dimensions and the format. -/
structure camera_fb_t where
  buf : List Nat
  len : Nat
  width : Nat
  height : Nat
  format : pixformat_t
deriving DecidableEq, Repr

/-- The context `jpg_write_ctx_t` handed to the encoder callback. -/
structure jpg_write_ctx_t where
  f : FILE
  written : Nat
deriving DecidableEq, Repr

/-- The callback `jpg_write_cb(arg, index, data, len)`, when its `fwrite`
reports `w`: the chunk goes to the file, `ctx->written += w`, and `w` is
returned. -/
def jpg_write_cb (ctx : jpg_write_ctx_t) (data : List Nat) (w : Nat) : jpg_write_ctx_t × Nat :=
  ({ f := fwrite ctx.f data w, written := (ctx.written + w) % U32 }, w)

/-- Everything outside `capture_and_save_jpeg` that decides one invocation. -/
structure CamEnv where
  /-- the result of `esp_camera_fb_get()`, `none` for a null pointer -/
  esp_camera_fb_get : Option camera_fb_t
  /-- whether `fopen(path, "wb")` yields a stream -/
  fopen_ok : Bool
  /-- what the pass-through `fwrite` reports -/
  fwrite_ret : Nat
  /-- the chunks the encoder `fmt2jpg_cb` hands to its callback, in order -/
  jpg_chunks : List (List Nat)
  /-- what the `fwrite` inside the `k`-th callback reports -/
  jpg_cb_fwrite : Nat → Nat
  /-- the return value of `fmt2jpg_cb` -/
  jpg_ok : Bool

/-- The encoder `fmt2jpg_cb(..., jpg_write_cb, &ctx)` of the camera component:
it calls the callback on each chunk it produces and reports success or
failure. -/
def fmt2jpg_cb (e : CamEnv) (ctx : jpg_write_ctx_t) : Bool × jpg_write_ctx_t :=
  (e.jpg_ok,
   e.jpg_chunks.enum.foldl (fun c kd => (jpg_write_cb c kd.2 (e.jpg_cb_fwrite kd.1)).1) ctx)

/-- What `capture_and_save_jpeg` does that can be seen from outside. -/
inductive CamEvent where
  | fb_get (fb : Option camera_fb_t)
  | fopen (path : String) (ok : Bool)
  | fclose
  | fb_return (fb : camera_fb_t)
  | log (msg : String)
deriving DecidableEq, Repr

/-- What one invocation of `capture_and_save_jpeg` leaves behind. -/
structure JpegResult where
  ret : Int
  /-- the image file as closed, when it was opened -/
  file : Option FILE
  /-- the final value of the local `written` -/
  written : Nat
  trace : List CamEvent
deriving DecidableEq, Repr

/-- The function `capture_and_save_jpeg(filename)`. The code reads `fb->format`
and `fb->len` once more after `esp_camera_fb_return(fb)`; the model takes the
values the descriptor had when the frame was acquired. -/
def capture_and_save_jpeg (e : CamEnv) (filename : String) : JpegResult :=
  match e.esp_camera_fb_get with
  | none =>
    { ret := ESP_FAIL, file := none, written := 0,
      trace := [.fb_get none, .log "Camera capture failed"] }
  | some fb =>
    let path := snprintf 64 ("/sdcard/" ++ filename)
    if !e.fopen_ok then
      { ret := ESP_FAIL, file := none, written := 0,
        trace := [.fb_get (some fb), .fopen path false,
                  .log "Failed to open file for writing", .fb_return fb] }
    else
      let f := fopen_wb
      let opened : List CamEvent := [.fb_get (some fb), .fopen path true]
      -- the branch on `fb->format`: the file, `written`, `err` and what was logged
      let step : FILE × Nat × Int × List CamEvent :=
        if fb.format = PIXFORMAT_JPEG then
          (fwrite f (fb.buf.take fb.len) e.fwrite_ret, e.fwrite_ret, ESP_OK, [])
        else
          let r := fmt2jpg_cb e { f := f, written := 0 }
          if !r.1 then (r.2.f, 0, ESP_FAIL, [.log "JPEG encode failed"])
          else (r.2.f, r.2.written, ESP_OK, [])
      let f := step.1
      let written := step.2.1
      let err := step.2.2.1
      let closed := opened ++ step.2.2.2 ++ [.fclose, .fb_return fb]
      if err ≠ ESP_OK then
        { ret := err, file := some f, written := written, trace := closed }
      else if fb.format = PIXFORMAT_JPEG ∧ written ≠ fb.len then
        { ret := ESP_FAIL, file := some f, written := written,
          trace := closed ++ [.log "Write failed, wrote %u of %u bytes"] }
      else if fb.format ≠ PIXFORMAT_JPEG ∧ written = 0 then
        { ret := ESP_FAIL, file := some f, written := written,
          trace := closed ++ [.log "Write failed, no data written"] }
      else
        { ret := ESP_OK, file := some f, written := written,
          trace := closed ++ [.log "Saved image to %s"] }

/-- The number of `esp_camera_fb_return` calls in a trace. -/
def releases (t : List CamEvent) : Nat :=
  (t.filter fun ev => match ev with | .fb_return _ => true | _ => false).length

/-- The frames `esp_camera_fb_get` returned in a trace (null results left out). -/
def acquired (t : List CamEvent) : List camera_fb_t :=
  t.filterMap fun ev => match ev with | .fb_get fb => fb | _ => none

/-- The frames given back by `esp_camera_fb_return` in a trace. -/
def released (t : List CamEvent) : List camera_fb_t :=
  t.filterMap fun ev => match ev with | .fb_return fb => some fb | _ => none

/-! ## The scheduler loop -/

/-- The decimal digits of `n`, most significant first, by repeated division by
ten as `printf` converts; `fuel` bounds the number of digits. -/
def dec_digits : Nat → Nat → List Char
  | 0, _ => []
  | fuel + 1, n =>
    if n < 10 then [Nat.digitChar n]
    else dec_digits fuel (n / 10) ++ [Nat.digitChar (n % 10)]

/-- The conversion `%05d` of `printf` applied to an `int` (at most ten digits):
minimum field width 5, padded with zeros after the sign. -/
def fmt_05d (n : Int) : String :=
  let ds := dec_digits 10 n.natAbs
  if n < 0 then String.mk ('-' :: (List.replicate (4 - ds.length) '0' ++ ds))
  else String.mk (List.replicate (5 - ds.length) '0' ++ ds)

/-- What the scheduler loop does that can be seen from outside. -/
inductive SchedEvent where
  | capture_call (name : String)
  | capture_ret (ret : Int)
  | record_call (name : String) (duration_ms : Nat)
  | record_ret (ret : Int)
  | log (msg : String)
  | delay (ms : Nat)
deriving DecidableEq, Repr

/-- The environment of one cycle: that of the image step and that of the audio
step, with the fuel given to the streaming loop. -/
structure CycleEnv where
  cam : CamEnv
  mic : AudioEnv
  fuel : Nat

/-- The name `snprintf(name, sizeof(name), "img%05d.jpg", n)` stores in
`char name[32]`. -/
def img_name (n : Int) : String := snprintf 32 ("img" ++ fmt_05d n ++ ".jpg")

/-- The name `snprintf(aud, sizeof(aud), "aud%05d.wav", n)` stores in
`char aud[32]`. -/
def aud_name (n : Int) : String := snprintf 32 ("aud" ++ fmt_05d n ++ ".wav")

/-- One iteration of `while (1) { ... }` in `app_main`, entered with
`image_count = c`: the image name is made from `image_count++`, the audio name
from `image_count - 1`. The second component is the value of `image_count` at
the end of the iteration, `none` when the audio step does not return. The
counter is an unbounded integer here; the theorems that follow it over many
iterations keep it below `INT_MAX`. -/
def cycle (e : CycleEnv) (c : Int) : List SchedEvent × Option Int :=
  let name := img_name c
  let image_count := c + 1
  let r1 := capture_and_save_jpeg e.cam name
  let t1 : List SchedEvent :=
    [.capture_call name, .capture_ret r1.ret,
     if r1.ret = ESP_OK then .log ("Captured " ++ name) else .log "Capture failed"]
  let aud := aud_name (image_count - 1)
  match record_and_save_wav e.mic e.fuel aud 3000 with
  | none => (t1 ++ [.record_call aud 3000], none)
  | some r2 =>
    (t1 ++ [.record_call aud 3000, .record_ret r2.ret] ++
       (if r2.ret ≠ ESP_OK then [.log "Audio capture failed"] else []) ++
       [.delay 5000],
     some image_count)

/-- The loop `while (1)` of `app_main` from `image_count = c`, cut after `n`
iterations: the trace of each iteration that was begun, iteration `k` in the
environment `envs k`. An iteration whose audio step does not return is the
last. -/
def app_main_loop (envs : Nat → CycleEnv) : Nat → Nat → Int → List (List SchedEvent)
  | 0, _, _ => []
  | n + 1, k, c =>
    let r := cycle (envs k) c
    r.1 :: (match r.2 with
            | none => []
            | some c1 => app_main_loop envs n (k + 1) c1)

/-- The ordinal `k` zero-padded to five decimal digits, digit by digit. -/
def pad5 (k : Nat) : String :=
  String.mk [Nat.digitChar (k / 10000 % 10), Nat.digitChar (k / 1000 % 10),
             Nat.digitChar (k / 100 % 10), Nat.digitChar (k / 10 % 10),
             Nat.digitChar (k % 10)]

/-- A camera that has no frame. -/
def camNone : CamEnv :=
  { esp_camera_fb_get := none, fopen_ok := true, fwrite_ret := 0, jpg_chunks := [],
    jpg_cb_fwrite := fun _ => 0, jpg_ok := false }

/-- A three-byte frame already in JPEG format. -/
def fbJpeg : camera_fb_t :=
  { buf := [255, 216, 255], len := 3, width := 1, height := 1, format := PIXFORMAT_JPEG }

/-- A camera delivering `fbJpeg`, the storage taking all of it. -/
def camJpeg : CamEnv :=
  { esp_camera_fb_get := some fbJpeg, fopen_ok := true, fwrite_ret := 3, jpg_chunks := [],
    jpg_cb_fwrite := fun _ => 0, jpg_ok := false }

/-- A cycle environment with no frame and the microphone not initialised. -/
def cycIdle : CycleEnv :=
  { cam := camNone, mic := { envGood with mic_ready := false }, fuel := 0 }

/-! ## Properties of environments and concrete runs -/

/-- Reads deliver at most the number of bytes requested. -/
def ReadsBounded (e : AudioEnv) : Prop :=
  ∀ i n, (e.i2s_channel_read i n).2.length ≤ n

/-- Writes report at most the number of bytes offered. -/
def WritesBounded (e : AudioEnv) : Prop :=
  ∀ i n, e.fwrite_ret i n ≤ n

/-- Successful reads of at least one byte deliver at least one byte and at most
the number requested. -/
def ReadsProgress (e : AudioEnv) : Prop :=
  ∀ i n, 0 < n → (e.i2s_channel_read i n).1 = ESP_OK →
    1 ≤ (e.i2s_channel_read i n).2.length ∧ (e.i2s_channel_read i n).2.length ≤ n

/-- The header region of a file is safe from appended payload: the stream
position is past it and within the file. -/
def PastHeader (f : FILE) : Prop := 44 ≤ f.pos ∧ f.pos ≤ f.data.length

/-- The file `envShort` leaves: the placeholder header and two payload bytes. -/
def shortFile : FILE := { data := (wav_header_init 0).bytes ++ [1, 2], pos := 46 }

/-- The run of `envShort` for 3000 ms: one pass, two payload bytes stored. -/
def shortRun : WavResult :=
  { ret := ESP_FAIL, path := some "/sdcard/aud00000.wav", file := some shortFile,
    bytes_written := 2, iterations := 1, log := ["Audio write failed"] }

/-- The payload is appended at the end of the file and counted exactly. -/
def Appending (s : WavLoop) : Prop :=
  s.f.pos = s.f.data.length ∧ s.f.data.length = 44 + s.bytes_written

/-- The file a one-millisecond capture leaves in `envGood`: the header for 32
payload bytes and 32 zero bytes. -/
def goodFile : FILE :=
  { data := (wav_header_init 32).bytes ++ List.replicate 32 0, pos := 44 }

/-- The run of `envGood` for one millisecond. -/
def goodRun : WavResult :=
  { ret := ESP_OK, path := some "/sdcard/aud00000.wav", file := some goodFile,
    bytes_written := 32, iterations := 1, log := [] }

/-- An environment like `envGood`, except that the `fwrite` of the final
`write_wav_header` call stores nothing. -/
def envHdrLost : AudioEnv :=
  { envGood with hdr_fwrite := fun k => if k = 1 then 0 else 44 }

/-- The file a one-millisecond capture leaves in `envHdrLost`: the placeholder
header and 32 zero bytes. -/
def staleFile : FILE :=
  { data := (wav_header_init 0).bytes ++ List.replicate 32 0, pos := 0 }

/-- The run of `envHdrLost` for one millisecond. -/
def staleRun : WavResult :=
  { ret := ESP_OK, path := some "/sdcard/aud00000.wav", file := some staleFile,
    bytes_written := 32, iterations := 1, log := [] }

/-- The trace of cycle 7 in `cycIdle`: both steps fail at once. -/
def idleTrace7 : List SchedEvent :=
  [.capture_call "img00007.jpg", .capture_ret ESP_FAIL, .log "Capture failed",
   .record_call "aud00007.wav" 3000, .record_ret ESP_FAIL, .log "Audio capture failed",
   .delay 5000]

/-! # Theorems -/

/-! ## Header layout and byte budget -/

theorem le32_mod_U32 (n : Nat) : le32 (n % U32) = le32 n := by
  simp only [le32, U32]
  have h0 : n % 2 ^ 32 % 256 = n % 256 := by omega
  have h1 : n % 2 ^ 32 / 256 % 256 = n / 256 % 256 := by omega
  have h2 : n % 2 ^ 32 / 65536 % 256 = n / 65536 % 256 := by omega
  have h3 : n % 2 ^ 32 / 16777216 % 256 = n / 16777216 % 256 := by omega
  rw [h0, h1, h2, h3]

theorem rd32_le32 (n : Nat) (rest : List Nat) : rd32 (le32 n ++ rest) = n % U32 := by
  simp only [rd32, le32, U32, List.cons_append, List.nil_append, List.getD_cons_zero,
    List.getD_cons_succ]
  omega

theorem header_bytes_eq (d : Nat) :
    (wav_header_init d).bytes =
      ascii "RIFF" ++ le32 (36 + d) ++ ascii "WAVE" ++ ascii "fmt " ++ le32 16 ++
      le16 1 ++ le16 1 ++ le32 16000 ++ le32 32000 ++ le16 2 ++ le16 16 ++
      ascii "data" ++ le32 d := by
  simp only [wav_header_t.bytes, wav_header_init, le32_mod_U32]
  rfl

theorem header_bytes_length (d : Nat) : (wav_header_init d).bytes.length = 44 := by
  rw [header_bytes_eq]
  simp [le32, le16, ascii]

theorem write_wav_header_data (f : FILE) (d w : Nat) (hw : 44 ≤ w) :
    (write_wav_header f d w).data = (wav_header_init d).bytes ++ f.data.drop 44 := by
  have hl := header_bytes_length d
  have ht : List.take w (wav_header_init d).bytes = (wav_header_init d).bytes :=
    List.take_of_length_le (by omega)
  simp [write_wav_header, fwrite, fseek_set, ht, hl]

theorem write_wav_header_pos (f : FILE) (d w : Nat) (hw : 44 ≤ w) :
    (write_wav_header f d w).pos = 44 := by
  have hl := header_bytes_length d
  have ht : List.take w (wav_header_init d).bytes = (wav_header_init d).bytes :=
    List.take_of_length_le (by omega)
  simp [write_wav_header, fwrite, fseek_set, ht, hl]

theorem data_size_field_header (d : Nat) (rest : List Nat) :
    data_size_field ((wav_header_init d).bytes ++ rest) = d % U32 := by
  rw [header_bytes_eq]
  simp only [data_size_field, ascii, le16, le32]
  simp only [String.toList, List.map, List.cons_append, List.nil_append, List.drop_succ_cons,
    List.drop_zero]
  exact rd32_le32 d rest

theorem riff_size_field_header (d : Nat) (rest : List Nat) :
    riff_size_field ((wav_header_init d).bytes ++ rest) = (36 + d) % U32 := by
  rw [header_bytes_eq]
  simp only [riff_size_field, ascii]
  simp only [String.toList, List.map, List.cons_append, List.nil_append, List.drop_succ_cons,
    List.drop_zero, List.append_assoc]
  exact rd32_le32 (36 + d) _

theorem block_align_field_header (d : Nat) (rest : List Nat) :
    rd16 (((wav_header_init d).bytes ++ rest).drop 32) = 2 := by
  rw [header_bytes_eq]
  simp [ascii, le16, le32, rd16]

/-- C6: for every `data_bytes`, `write_wav_header` (its `fwrite` storing the
whole struct) puts at offset 0 of the file exactly the 44 bytes "RIFF",
little-endian 32-bit `36 + data_bytes`, "WAVE", "fmt ", 32-bit 16, 16-bit 1,
16-bit channel count 1, 32-bit 16000, 32-bit byte rate 32000, 16-bit block
align 2, 16-bit 16, "data", 32-bit `data_bytes`, and leaves the rest of the
file alone; the byte rate is rate x channels x bytes per sample and the block
align channels x bytes per sample; the placeholder (`data_bytes = 0`) declares
payload size 0 and overall size 36. -/
theorem write_wav_header_layout (f : FILE) (data_bytes w : Nat) (hw : 44 ≤ w) :
    (write_wav_header f data_bytes w).data.take 44 =
        ascii "RIFF" ++ le32 (36 + data_bytes) ++ ascii "WAVE" ++ ascii "fmt " ++
        le32 16 ++ le16 1 ++ le16 1 ++ le32 16000 ++ le32 32000 ++
        le16 2 ++ le16 16 ++ ascii "data" ++ le32 data_bytes
    ∧ (write_wav_header f data_bytes w).data.drop 44 = f.data.drop 44
    ∧ (wav_header_init data_bytes).bytes.length = 44
    ∧ 32000 = MIC_SAMPLE_RATE_HZ * MIC_CHANNELS * (MIC_BITS_PER_SAMPLE / 8)
    ∧ 2 = MIC_CHANNELS * (MIC_BITS_PER_SAMPLE / 8)
    ∧ (write_wav_header f 0 w).data.take 44 =
        [82, 73, 70, 70, 36, 0, 0, 0, 87, 65, 86, 69, 102, 109, 116, 32, 16, 0, 0, 0, 1, 0,
         1, 0, 128, 62, 0, 0, 0, 125, 0, 0, 2, 0, 16, 0, 100, 97, 116, 97, 0, 0, 0, 0]
    ∧ data_size_field (write_wav_header f 0 w).data = 0
    ∧ riff_size_field (write_wav_header f 0 w).data = 36 := by
  have hl := header_bytes_length data_bytes
  refine ⟨?_, ?_, hl, by decide, by decide, ?_, ?_, ?_⟩
  · rw [write_wav_header_data f data_bytes w hw, List.take_left' hl, header_bytes_eq]
  · rw [write_wav_header_data f data_bytes w hw, List.drop_left' hl]
  · rw [write_wav_header_data f 0 w hw, List.take_left' (header_bytes_length 0)]
    decide
  · rw [write_wav_header_data f 0 w hw, data_size_field_header]
    decide
  · rw [write_wav_header_data f 0 w hw, riff_size_field_header]
    decide

theorem write_wav_header_layout_witness :
    (write_wav_header fopen_wb 96000 44).data.take 44 =
        ascii "RIFF" ++ le32 (36 + 96000) ++ ascii "WAVE" ++ ascii "fmt " ++
        le32 16 ++ le16 1 ++ le16 1 ++ le32 16000 ++ le32 32000 ++
        le16 2 ++ le16 16 ++ ascii "data" ++ le32 96000 :=
  (write_wav_header_layout fopen_wb 96000 44 (by decide)).1

theorem total_bytes_lt_U32 (d : Nat) : total_bytes d < U32 := by
  simp only [total_bytes, U32]
  omega

theorem total_bytes_le (d : Nat) : total_bytes d ≤ 4294967 := by
  simp only [total_bytes, U32]
  omega

/-- The budget is the exact quotient as long as the 32-bit product does not
wrap, that is up to 134217 ms. -/
theorem total_bytes_exact (d : Nat) (hd : d ≤ 134217) :
    total_bytes d = 16000 * 2 * d / 1000 := by
  simp only [total_bytes, U32, MIC_SAMPLE_RATE_HZ, bytes_per_sample, MIC_BITS_PER_SAMPLE,
    MIC_CHANNELS]
  omega

theorem bytes_to_read_le (total bw : Nat) : bytes_to_read total bw ≤ total - bw := by
  unfold bytes_to_read
  split <;> omega

theorem bytes_to_read_pos (total bw : Nat) (h : bw < total) : 0 < bytes_to_read total bw := by
  unfold bytes_to_read buffer_bytes
  split <;> omega

theorem stream_body_read_fail (e : AudioEnv) (total : Nat) (s : WavLoop)
    (h : (e.i2s_channel_read s.iter (bytes_to_read total s.bytes_written)).1 ≠ ESP_OK) :
    stream_body e total s =
      { s with ret := (e.i2s_channel_read s.iter (bytes_to_read total s.bytes_written)).1,
               iter := s.iter + 1, log := s.log ++ ["I2S read failed"], exited := true } := by
  simp only [stream_body]
  rw [if_pos h]

theorem stream_body_short (e : AudioEnv) (total : Nat) (s : WavLoop)
    (h : (e.i2s_channel_read s.iter (bytes_to_read total s.bytes_written)).1 = ESP_OK)
    (hw : e.fwrite_ret s.iter
        (e.i2s_channel_read s.iter (bytes_to_read total s.bytes_written)).2.length ≠
      (e.i2s_channel_read s.iter (bytes_to_read total s.bytes_written)).2.length) :
    stream_body e total s =
      { f := fwrite s.f (e.i2s_channel_read s.iter (bytes_to_read total s.bytes_written)).2
          (e.fwrite_ret s.iter
            (e.i2s_channel_read s.iter (bytes_to_read total s.bytes_written)).2.length),
        ret := ESP_FAIL,
        bytes_written := (s.bytes_written + e.fwrite_ret s.iter
          (e.i2s_channel_read s.iter (bytes_to_read total s.bytes_written)).2.length) % U32,
        iter := s.iter + 1, log := s.log ++ ["Audio write failed"], exited := true } := by
  simp only [stream_body]
  rw [if_neg (not_not.mpr h), if_pos hw]

theorem stream_body_go (e : AudioEnv) (total : Nat) (s : WavLoop)
    (h : (e.i2s_channel_read s.iter (bytes_to_read total s.bytes_written)).1 = ESP_OK)
    (hw : e.fwrite_ret s.iter
        (e.i2s_channel_read s.iter (bytes_to_read total s.bytes_written)).2.length =
      (e.i2s_channel_read s.iter (bytes_to_read total s.bytes_written)).2.length) :
    stream_body e total s =
      { f := fwrite s.f (e.i2s_channel_read s.iter (bytes_to_read total s.bytes_written)).2
          (e.fwrite_ret s.iter
            (e.i2s_channel_read s.iter (bytes_to_read total s.bytes_written)).2.length),
        ret := (e.i2s_channel_read s.iter (bytes_to_read total s.bytes_written)).1,
        bytes_written := (s.bytes_written + e.fwrite_ret s.iter
          (e.i2s_channel_read s.iter (bytes_to_read total s.bytes_written)).2.length) % U32,
        iter := s.iter + 1, log := s.log, exited := false } := by
  simp only [stream_body]
  rw [if_neg (not_not.mpr h), if_neg (not_not.mpr hw)]

theorem stream_body_iter (e : AudioEnv) (total : Nat) (s : WavLoop) :
    (stream_body e total s).iter = s.iter + 1 := by
  by_cases h : (e.i2s_channel_read s.iter (bytes_to_read total s.bytes_written)).1 = ESP_OK
  · by_cases hw : e.fwrite_ret s.iter
        (e.i2s_channel_read s.iter (bytes_to_read total s.bytes_written)).2.length =
        (e.i2s_channel_read s.iter (bytes_to_read total s.bytes_written)).2.length
    · rw [stream_body_go e total s h hw]
    · rw [stream_body_short e total s h hw]
  · rw [stream_body_read_fail e total s h]

/-- One pass of the body under bounded reads and writes: the count stays within
the budget; a pass that goes on keeps `ret = ESP_OK`; a pass that breaks leaves
a failure code and a count below the budget. -/
theorem stream_body_spec (e : AudioEnv) (total : Nat) (s : WavLoop)
    (hr : ReadsBounded e) (hw : WritesBounded e) (ht : total < U32)
    (hlt : s.bytes_written < total) :
    (stream_body e total s).bytes_written ≤ total ∧
    ((stream_body e total s).exited = false → (stream_body e total s).ret = ESP_OK) ∧
    ((stream_body e total s).exited = true →
      (stream_body e total s).ret ≠ ESP_OK ∧ (stream_body e total s).bytes_written < total) := by
  have hb := bytes_to_read_le total s.bytes_written
  have hrd := hr s.iter (bytes_to_read total s.bytes_written)
  have hwr := hw s.iter (e.i2s_channel_read s.iter (bytes_to_read total s.bytes_written)).2.length
  have hmod : ∀ w, s.bytes_written + w ≤ total →
      (s.bytes_written + w) % U32 = s.bytes_written + w :=
    fun w h => Nat.mod_eq_of_lt (by omega)
  by_cases h : (e.i2s_channel_read s.iter (bytes_to_read total s.bytes_written)).1 = ESP_OK
  · by_cases hweq : e.fwrite_ret s.iter
        (e.i2s_channel_read s.iter (bytes_to_read total s.bytes_written)).2.length =
        (e.i2s_channel_read s.iter (bytes_to_read total s.bytes_written)).2.length
    · rw [stream_body_go e total s h hweq]
      simp only
      rw [hmod _ (by omega)]
      exact ⟨by omega, fun _ => h, fun hc => by simp at hc⟩
    · rw [stream_body_short e total s h hweq]
      simp only
      rw [hmod _ (by omega)]
      exact ⟨by omega, fun hc => by simp at hc, fun _ => ⟨by decide, by omega⟩⟩
  · rw [stream_body_read_fail e total s h]
    simp only
    exact ⟨by omega, fun hc => by simp at hc, fun _ => ⟨h, hlt⟩⟩

/-- The loop under bounded reads and writes, from a state inside the budget
with `ret = ESP_OK`: the count stays within the budget, and once the loop is
left `ret = ESP_OK` holds exactly when the budget was reached. -/
theorem stream_loop_spec (e : AudioEnv) (total : Nat)
    (hr : ReadsBounded e) (hw : WritesBounded e) (ht : total < U32) :
    ∀ (fuel : Nat) (s : WavLoop), s.bytes_written ≤ total → s.ret = ESP_OK →
      s.exited = false →
      (stream_loop e total fuel s).bytes_written ≤ total ∧
      ((stream_loop e total fuel s).exited = true →
        ((stream_loop e total fuel s).ret = ESP_OK ↔
          (stream_loop e total fuel s).bytes_written = total)) := by
  intro fuel
  induction fuel with
  | zero =>
    intro s hle hret hne
    simp only [stream_loop]
    split
    · refine ⟨hle, ?_⟩
      intro hc
      rw [hne] at hc
      cases hc
    · refine ⟨hle, ?_⟩
      intro _
      simp only
      constructor
      · intro _; omega
      · intro _; exact hret
  | succ fuel ih =>
    intro s hle hret hne
    simp only [stream_loop]
    split
    · rename_i hlt
      obtain ⟨h1, h2, h3⟩ := stream_body_spec e total s hr hw ht hlt
      split
      · rename_i hex
        refine ⟨h1, ?_⟩
        intro _
        obtain ⟨h4, h5⟩ := h3 hex
        constructor
        · intro h; exact absurd h h4
        · intro h; omega
      · rename_i hex
        have hex2 : (stream_body e total s).exited = false := by simpa using hex
        exact ih _ h1 (h2 hex2) hex2
    · refine ⟨hle, ?_⟩
      intro _
      simp only
      constructor
      · intro _; omega
      · intro _; exact hret

/-- With enough fuel the loop is left, after at most `total` passes, provided
successful reads make progress. -/
theorem stream_loop_exits (e : AudioEnv) (total : Nat) (hp : ReadsProgress e)
    (ht : total < U32) :
    ∀ (fuel : Nat) (s : WavLoop), s.bytes_written ≤ total → s.iter ≤ s.bytes_written →
      total - s.bytes_written ≤ fuel →
      (stream_loop e total fuel s).exited = true ∧ (stream_loop e total fuel s).iter ≤ total := by
  intro fuel
  induction fuel with
  | zero =>
    intro s hle hit hf
    simp only [stream_loop]
    split
    · omega
    · exact ⟨rfl, by simp only; omega⟩
  | succ fuel ih =>
    intro s hle hit hf
    simp only [stream_loop]
    split
    · rename_i hlt
      have hb := bytes_to_read_le total s.bytes_written
      have hrd := hp s.iter (bytes_to_read total s.bytes_written)
        (bytes_to_read_pos total s.bytes_written hlt)
      have hiter := stream_body_iter e total s
      split
      · rename_i hex
        exact ⟨hex, by omega⟩
      · rename_i hex
        by_cases h : (e.i2s_channel_read s.iter (bytes_to_read total s.bytes_written)).1 = ESP_OK
        · by_cases hweq : e.fwrite_ret s.iter
              (e.i2s_channel_read s.iter (bytes_to_read total s.bytes_written)).2.length =
              (e.i2s_channel_read s.iter (bytes_to_read total s.bytes_written)).2.length
          · obtain ⟨hge, hle2⟩ := hrd h
            have hbw : (stream_body e total s).bytes_written = s.bytes_written +
                (e.i2s_channel_read s.iter (bytes_to_read total s.bytes_written)).2.length := by
              rw [stream_body_go e total s h hweq]
              simp only
              rw [hweq]
              exact Nat.mod_eq_of_lt (by omega)
            exact ih _ (by omega) (by omega) (by omega)
          · rw [stream_body_short e total s h hweq] at hex
            simp at hex
        · rw [stream_body_read_fail e total s h] at hex
          simp at hex
    · exact ⟨rfl, by simp only; omega⟩

theorem stream_init_exits_reason (e : AudioEnv) (total : Nat) :
    ∀ (fuel : Nat) (s : WavLoop), (stream_loop e total fuel s).exited = true →
      s.exited = false →
      total ≤ (stream_loop e total fuel s).bytes_written ∨
      "I2S read failed" ∈ (stream_loop e total fuel s).log ∨
      "Audio write failed" ∈ (stream_loop e total fuel s).log := by
  intro fuel
  induction fuel with
  | zero =>
    intro s hex hne
    simp only [stream_loop] at hex ⊢
    split
    · rename_i hlt
      rw [if_pos hlt, hne] at hex
      cases hex
    · left
      simp only
      omega
  | succ fuel ih =>
    intro s hex hne
    simp only [stream_loop] at hex ⊢
    split
    · rename_i hlt
      rw [if_pos hlt] at hex
      split
      · rename_i hb
        by_cases h : (e.i2s_channel_read s.iter (bytes_to_read total s.bytes_written)).1 = ESP_OK
        · by_cases hweq : e.fwrite_ret s.iter
              (e.i2s_channel_read s.iter (bytes_to_read total s.bytes_written)).2.length =
              (e.i2s_channel_read s.iter (bytes_to_read total s.bytes_written)).2.length
          · rw [stream_body_go e total s h hweq] at hb
            simp at hb
          · rw [stream_body_short e total s h hweq]
            right; right
            simp
        · rw [stream_body_read_fail e total s h]
          right; left
          simp
      · rename_i hb
        rw [if_neg hb] at hex
        exact ih _ hex (by simpa using hb)
    · left
      simp only
      omega

/-- A pass whose read succeeds with no bytes, all of them "written", changes
neither the count nor the file contents nor `ret`, and goes on. -/
theorem stream_body_no_progress (e : AudioEnv) (total : Nat) (s : WavLoop)
    (hrd : e.i2s_channel_read s.iter (bytes_to_read total s.bytes_written) = (ESP_OK, []))
    (hwr : e.fwrite_ret s.iter 0 = 0) (hb : s.bytes_written < U32) :
    (stream_body e total s).bytes_written = s.bytes_written ∧
    (stream_body e total s).f.data = s.f.data ∧
    (stream_body e total s).exited = false := by
  have h1 : (e.i2s_channel_read s.iter (bytes_to_read total s.bytes_written)).1 = ESP_OK := by
    rw [hrd]
  have h2 : e.fwrite_ret s.iter
      (e.i2s_channel_read s.iter (bytes_to_read total s.bytes_written)).2.length =
      (e.i2s_channel_read s.iter (bytes_to_read total s.bytes_written)).2.length := by
    rw [hrd]; exact hwr
  rw [stream_body_go e total s h1 h2, hrd]
  simp only [List.length_nil, hwr, Nat.add_zero]
  refine ⟨Nat.mod_eq_of_lt hb, ?_, trivial⟩
  simp [fwrite]

/-- When every read succeeds with no bytes, the loop is never left. -/
theorem stream_loop_stalls (e : AudioEnv) (total : Nat)
    (hrd : ∀ i n, e.i2s_channel_read i n = (ESP_OK, []))
    (hwr : ∀ i, e.fwrite_ret i 0 = 0) :
    ∀ (fuel : Nat) (s : WavLoop), s.bytes_written < total → s.bytes_written < U32 →
      s.exited = false →
      (stream_loop e total fuel s).exited = false ∧
      (stream_loop e total fuel s).bytes_written = s.bytes_written := by
  intro fuel
  induction fuel with
  | zero =>
    intro s hlt _ hne
    simp only [stream_loop]
    rw [if_pos hlt]
    exact ⟨hne, rfl⟩
  | succ fuel ih =>
    intro s hlt hb hne
    obtain ⟨h1, _, h3⟩ := stream_body_no_progress e total s (hrd _ _) (hwr _) hb
    simp only [stream_loop]
    rw [if_pos hlt, if_neg (by simp [h3])]
    obtain ⟨h4, h5⟩ := ih (stream_body e total s) (by omega) (by omega) h3
    exact ⟨h4, by omega⟩

/-- C3: under reads that deliver at most what was requested and writes that
report at most what was offered, the running count `bytes_written` of the
streaming loop is never above the budget `total_bytes` (for every number of
passes of the loop), and when `record_and_save_wav` returns from a run that
reached the loop, it returns `ESP_OK` exactly when `bytes_written` equals the
budget. -/
theorem bytes_written_within_budget (e : AudioEnv) (filename : String) (duration_ms : Nat)
    (hr : ReadsBounded e) (hw : WritesBounded e) :
    (∀ (fuel : Nat) (f : FILE),
      (stream_loop e (total_bytes duration_ms) fuel (stream_init f ESP_OK)).bytes_written
        ≤ total_bytes duration_ms) ∧
    (∀ (fuel : Nat) (r : WavResult),
      e.mic_ready = true → e.fopen_ok = true → e.i2s_channel_enable = ESP_OK →
      record_and_save_wav e fuel filename duration_ms = some r →
      r.bytes_written ≤ total_bytes duration_ms ∧
      (r.ret = ESP_OK ↔ r.bytes_written = total_bytes duration_ms)) := by
  have ht := total_bytes_lt_U32 duration_ms
  constructor
  · intro fuel f
    exact (stream_loop_spec e _ hr hw ht fuel (stream_init f ESP_OK) (Nat.zero_le _) rfl rfl).1
  · intro fuel r hmic hopen hen hrun
    simp only [record_and_save_wav, hmic, hopen, hen, Bool.not_true, Bool.false_eq_true,
      if_false, ne_eq, not_true_eq_false] at hrun
    obtain ⟨h1, h2⟩ := stream_loop_spec e _ hr hw ht fuel
      (stream_init (write_wav_header fopen_wb 0 (e.hdr_fwrite 0)) ESP_OK) (Nat.zero_le _) rfl rfl
    split at hrun
    · cases hrun
    · rename_i hex
      have hex2 := h2 (by simpa using hex)
      cases hrun
      exact ⟨h1, hex2⟩

theorem envGood_reads_bounded : ReadsBounded envGood := by
  intro i n
  simp [envGood]

theorem envGood_writes_bounded : WritesBounded envGood := by
  intro i n
  simp [envGood]

theorem envGood_reads_progress : ReadsProgress envGood := by
  intro i n hn _
  simp only [envGood, List.length_replicate]
  omega

theorem bytes_written_within_budget_witness :
    ReadsBounded envGood ∧ WritesBounded envGood ∧
    (stream_loop envGood (total_bytes 1) 1 (stream_init fopen_wb ESP_OK)).bytes_written
      ≤ total_bytes 1 :=
  ⟨envGood_reads_bounded, envGood_writes_bounded,
   (bytes_written_within_budget envGood "aud00000.wav" 1 envGood_reads_bounded
      envGood_writes_bounded).1 1 fopen_wb⟩

/-- C10: when every successful read of at least one byte delivers at least one
byte and at most the number requested, the streaming loop given `total_bytes`
passes of fuel is left after at most `total_bytes` passes, by reaching the
budget, by a read failure or by a short write, and `record_and_save_wav`
returns. Without the precondition (every read succeeds with 0 bytes, 0 bytes
reported written) the count stays at 0 and the loop is never left, whatever
the fuel. -/
theorem stream_loop_terminates (e : AudioEnv) (filename : String) (duration_ms : Nat)
    (f : FILE) (fuel : Nat) (hp : ReadsProgress e) (hf : total_bytes duration_ms ≤ fuel) :
    (stream_loop e (total_bytes duration_ms) fuel (stream_init f ESP_OK)).exited = true ∧
    (stream_loop e (total_bytes duration_ms) fuel (stream_init f ESP_OK)).iter
      ≤ total_bytes duration_ms ∧
    (total_bytes duration_ms
        ≤ (stream_loop e (total_bytes duration_ms) fuel (stream_init f ESP_OK)).bytes_written ∨
      "I2S read failed"
        ∈ (stream_loop e (total_bytes duration_ms) fuel (stream_init f ESP_OK)).log ∨
      "Audio write failed"
        ∈ (stream_loop e (total_bytes duration_ms) fuel (stream_init f ESP_OK)).log) ∧
    (∃ r, record_and_save_wav e fuel filename duration_ms = some r ∧
      r.iterations ≤ total_bytes duration_ms) ∧
    (∀ (e0 : AudioEnv) (n : Nat), (∀ i m, e0.i2s_channel_read i m = (ESP_OK, [])) →
      (∀ i, e0.fwrite_ret i 0 = 0) → 0 < total_bytes duration_ms →
      (stream_loop e0 (total_bytes duration_ms) n (stream_init f ESP_OK)).exited = false ∧
      (stream_loop e0 (total_bytes duration_ms) n (stream_init f ESP_OK)).bytes_written = 0 ∧
      record_and_save_wav { e0 with mic_ready := true, fopen_ok := true,
                                    i2s_channel_enable := ESP_OK } n filename duration_ms
        = none) := by
  have ht := total_bytes_lt_U32 duration_ms
  obtain ⟨h1, h2⟩ := stream_loop_exits e _ hp ht fuel (stream_init f ESP_OK)
    (Nat.zero_le _) (Nat.le_refl _) (by simpa [stream_init] using hf)
  refine ⟨h1, h2, stream_init_exits_reason e _ fuel _ h1 rfl, ?_, ?_⟩
  · simp only [record_and_save_wav]
    split
    · exact ⟨_, rfl, Nat.zero_le _⟩
    · split
      · exact ⟨_, rfl, Nat.zero_le _⟩
      · split
        · exact ⟨_, rfl, Nat.zero_le _⟩
        · obtain ⟨h3, h4⟩ := stream_loop_exits e _ hp ht fuel
            (stream_init (write_wav_header fopen_wb 0 (e.hdr_fwrite 0)) e.i2s_channel_enable)
            (Nat.zero_le _) (Nat.le_refl _) (by simpa [stream_init] using hf)
          rw [if_neg (by simp [h3])]
          exact ⟨_, rfl, h4⟩
  · intro e0 n hrd hwr hpos
    obtain ⟨h3, h4⟩ := stream_loop_stalls e0 _ hrd hwr n (stream_init f ESP_OK) hpos
      (by simp [stream_init, U32]) rfl
    refine ⟨h3, h4, ?_⟩
    obtain ⟨h5, _⟩ := stream_loop_stalls
      { e0 with mic_ready := true, fopen_ok := true, i2s_channel_enable := ESP_OK } _ hrd hwr n
      (stream_init (write_wav_header fopen_wb 0 (e0.hdr_fwrite 0)) ESP_OK) hpos
      (by simp [stream_init, U32]) rfl
    simp only [record_and_save_wav, Bool.not_true, Bool.false_eq_true, if_false, ne_eq,
      not_true_eq_false]
    rw [if_pos (by simp [h5])]

theorem stream_loop_terminates_witness :
    ReadsProgress envGood ∧ total_bytes 1 ≤ 32 ∧
    (stream_loop envGood (total_bytes 1) 32 (stream_init fopen_wb ESP_OK)).exited = true ∧
    (stream_loop envGood (total_bytes 1) 32 (stream_init fopen_wb ESP_OK)).iter
      ≤ total_bytes 1 ∧
    (stream_loop envStall (total_bytes 1) 1000 (stream_init fopen_wb ESP_OK)).exited = false :=
  ⟨envGood_reads_progress, by decide,
   (stream_loop_terminates envGood "aud00000.wav" 1 fopen_wb 32 envGood_reads_progress
      (by decide)).1,
   (stream_loop_terminates envGood "aud00000.wav" 1 fopen_wb 32 envGood_reads_progress
      (by decide)).2.1,
   ((stream_loop_terminates envGood "aud00000.wav" 1 fopen_wb 32 envGood_reads_progress
      (by decide)).2.2.2.2 envStall 1000 (fun _ _ => rfl) (fun _ => rfl) (by decide)).1⟩

/-! ## The header left in the file -/

theorem fwrite_past_header (f : FILE) (buf : List Nat) (w : Nat) (h : PastHeader f) :
    PastHeader (fwrite f buf w) ∧ (fwrite f buf w).data.take 44 = f.data.take 44 := by
  obtain ⟨h1, h2⟩ := h
  have hlen : (List.take f.pos f.data).length = f.pos := by
    rw [List.length_take]; omega
  refine ⟨⟨?_, ?_⟩, ?_⟩
  · simp only [fwrite]; omega
  · simp only [fwrite, List.length_append, List.length_drop, hlen]
    omega
  · simp only [fwrite, List.append_assoc]
    rw [List.take_append_of_le_length (by omega), List.take_take]
    congr 1
    omega

theorem stream_body_past_header (e : AudioEnv) (total : Nat) (s : WavLoop)
    (h : PastHeader s.f) :
    PastHeader (stream_body e total s).f ∧
    (stream_body e total s).f.data.take 44 = s.f.data.take 44 := by
  by_cases hr : (e.i2s_channel_read s.iter (bytes_to_read total s.bytes_written)).1 = ESP_OK
  · by_cases hweq : e.fwrite_ret s.iter
        (e.i2s_channel_read s.iter (bytes_to_read total s.bytes_written)).2.length =
        (e.i2s_channel_read s.iter (bytes_to_read total s.bytes_written)).2.length
    · rw [stream_body_go e total s hr hweq]
      exact fwrite_past_header _ _ _ h
    · rw [stream_body_short e total s hr hweq]
      exact fwrite_past_header _ _ _ h
  · rw [stream_body_read_fail e total s hr]
    exact ⟨h, rfl⟩

theorem stream_loop_past_header (e : AudioEnv) (total : Nat) :
    ∀ (fuel : Nat) (s : WavLoop), PastHeader s.f →
      PastHeader (stream_loop e total fuel s).f ∧
      (stream_loop e total fuel s).f.data.take 44 = s.f.data.take 44 := by
  intro fuel
  induction fuel with
  | zero =>
    intro s h
    simp only [stream_loop]
    split <;> exact ⟨h, rfl⟩
  | succ fuel ih =>
    intro s h
    obtain ⟨h1, h2⟩ := stream_body_past_header e total s h
    simp only [stream_loop]
    split
    · split
      · exact ⟨h1, h2⟩
      · obtain ⟨h3, h4⟩ := ih _ h1
        exact ⟨h3, h4.trans h2⟩
    · exact ⟨h, rfl⟩

/-- The log entry of a short write is only made on the way out, with
`ret = ESP_FAIL`. -/
theorem stream_loop_short_write (e : AudioEnv) (total : Nat) :
    ∀ (fuel : Nat) (s : WavLoop), "Audio write failed" ∉ s.log →
      "Audio write failed" ∈ (stream_loop e total fuel s).log →
      (stream_loop e total fuel s).ret = ESP_FAIL := by
  intro fuel
  induction fuel with
  | zero =>
    intro s h hin
    simp only [stream_loop] at hin
    split at hin <;> exact absurd hin h
  | succ fuel ih =>
    intro s h hin
    simp only [stream_loop] at hin ⊢
    split
    · rename_i hlt
      rw [if_pos hlt] at hin
      by_cases hr : (e.i2s_channel_read s.iter (bytes_to_read total s.bytes_written)).1 = ESP_OK
      · by_cases hweq : e.fwrite_ret s.iter
            (e.i2s_channel_read s.iter (bytes_to_read total s.bytes_written)).2.length =
            (e.i2s_channel_read s.iter (bytes_to_read total s.bytes_written)).2.length
        · have hb := stream_body_go e total s hr hweq
          rw [hb] at hin ⊢
          simp only [Bool.false_eq_true, if_false] at hin ⊢
          exact ih _ h hin
        · rw [stream_body_short e total s hr hweq]
          simp
      · have hb := stream_body_read_fail e total s hr
        rw [hb] at hin
        simp only [if_true] at hin
        simp only [List.mem_append, List.mem_singleton] at hin
        rcases hin with hin | hin
        · exact absurd hin h
        · exact absurd hin (by decide)
    · rename_i hlt
      rw [if_neg hlt] at hin
      exact absurd hin h

theorem placeholder_past_header (w : Nat) (hw : 44 ≤ w) :
    PastHeader (write_wav_header fopen_wb 0 w) ∧
    (write_wav_header fopen_wb 0 w).data = (wav_header_init 0).bytes := by
  have hd : (write_wav_header fopen_wb 0 w).data = (wav_header_init 0).bytes := by
    rw [write_wav_header_data fopen_wb 0 w hw]
    simp [fopen_wb]
  have hp := write_wav_header_pos fopen_wb 0 w hw
  have hl := header_bytes_length 0
  refine ⟨⟨by omega, ?_⟩, hd⟩
  rw [hd, hl, hp]

/-- C1 (as the code has it): when a payload write comes up short, whatever the
number N of payload bytes written so far, `record_and_save_wav` returns
`ESP_FAIL` without rewriting the header: the 44 bytes at offset 0 of the file
are still the placeholder (stored whole), whose payload-size field is 0 and
whose overall-size field is 36. -/
theorem short_write_keeps_placeholder (e : AudioEnv) (fuel : Nat) (filename : String)
    (duration_ms : Nat) (r : WavResult) (hh : 44 ≤ e.hdr_fwrite 0)
    (hrun : record_and_save_wav e fuel filename duration_ms = some r)
    (hshort : "Audio write failed" ∈ r.log) :
    r.ret = ESP_FAIL ∧
    ∃ f, r.file = some f ∧ f.data.take 44 = (wav_header_init 0).bytes ∧
      data_size_field f.data = 0 ∧ riff_size_field f.data = 36 := by
  obtain ⟨hph, hpd⟩ := placeholder_past_header (e.hdr_fwrite 0) hh
  have hl := header_bytes_length 0
  simp only [record_and_save_wav] at hrun
  split at hrun
  · cases hrun
    simp at hshort
  · split at hrun
    · cases hrun
      simp at hshort
    · split at hrun
      · cases hrun
        simp at hshort
      · split at hrun
        · cases hrun
        · cases hrun
          simp only at hshort ⊢
          have hret := stream_loop_short_write e (total_bytes duration_ms) fuel
            (stream_init (write_wav_header fopen_wb 0 (e.hdr_fwrite 0)) e.i2s_channel_enable)
            (by simp [stream_init]) hshort
          obtain ⟨_, hk⟩ := stream_loop_past_header e (total_bytes duration_ms) fuel
            (stream_init (write_wav_header fopen_wb 0 (e.hdr_fwrite 0)) e.i2s_channel_enable)
            hph
          have hne : ¬ ESP_FAIL = ESP_OK := by decide
          refine ⟨hret, _, rfl, ?_⟩
          rw [hret, if_neg hne]
          have htake : List.take 44 (stream_loop e (total_bytes duration_ms) fuel
              (stream_init (write_wav_header fopen_wb 0 (e.hdr_fwrite 0))
                e.i2s_channel_enable)).f.data = (wav_header_init 0).bytes := by
            rw [hk]
            simp only [stream_init]
            rw [hpd, ← hl, List.take_length]
          refine ⟨htake, ?_, ?_⟩
          · have := data_size_field_header 0 (List.drop 44 (stream_loop e
              (total_bytes duration_ms) fuel (stream_init (write_wav_header fopen_wb 0
                (e.hdr_fwrite 0)) e.i2s_channel_enable)).f.data)
            rw [← htake, List.take_append_drop] at this
            rw [this]; decide
          · have := riff_size_field_header 0 (List.drop 44 (stream_loop e
              (total_bytes duration_ms) fuel (stream_init (write_wav_header fopen_wb 0
                (e.hdr_fwrite 0)) e.i2s_channel_enable)).f.data)
            rw [← htake, List.take_append_drop] at this
            rw [this]; decide

theorem envShort_run : record_and_save_wav envShort 5 "aud00000.wav" 3000 = some shortRun := by
  decide

theorem short_write_keeps_placeholder_witness :
    44 ≤ envShort.hdr_fwrite 0 ∧
    record_and_save_wav envShort 5 "aud00000.wav" 3000 = some shortRun ∧
    "Audio write failed" ∈ shortRun.log ∧ shortRun.ret = ESP_FAIL :=
  ⟨by decide, envShort_run, by decide,
   (short_write_keeps_placeholder envShort 5 "aud00000.wav" 3000 shortRun (by decide)
      envShort_run (by decide)).1⟩

/-- C1, refuted as stated: in the run of `envShort` (the first read delivers
four bytes, the storage takes two of them) the write comes up short after
N = 2 payload bytes, and the header left in the file declares payload size 0,
not 2. -/
theorem short_write_header_not_patched :
    record_and_save_wav envShort 5 "aud00000.wav" 3000 = some shortRun ∧
    "Audio write failed" ∈ shortRun.log ∧ shortRun.bytes_written = 2 ∧
    shortRun.file = some shortFile ∧ shortFile.data.length = 44 + 2 ∧
    data_size_field shortFile.data = 0 ∧
    data_size_field shortFile.data ≠ shortRun.bytes_written := by
  decide

/-! ## The header after a successful capture -/

theorem fwrite_at_end (f : FILE) (buf : List Nat) (w : Nat) (h : f.pos = f.data.length)
    (hw : w ≤ buf.length) :
    (fwrite f buf w).pos = (fwrite f buf w).data.length ∧
    (fwrite f buf w).data.length = f.data.length + w := by
  simp only [fwrite, List.length_append, List.length_take, List.length_drop, h]
  omega

theorem stream_body_appending (e : AudioEnv) (total : Nat) (s : WavLoop)
    (hr : ReadsBounded e) (hw : WritesBounded e) (ht : total < U32)
    (hlt : s.bytes_written < total) (h : Appending s) :
    Appending (stream_body e total s) := by
  have hb := bytes_to_read_le total s.bytes_written
  have hrd := hr s.iter (bytes_to_read total s.bytes_written)
  have hwr := hw s.iter (e.i2s_channel_read s.iter (bytes_to_read total s.bytes_written)).2.length
  have hmod : (s.bytes_written + e.fwrite_ret s.iter
      (e.i2s_channel_read s.iter (bytes_to_read total s.bytes_written)).2.length) % U32 =
      s.bytes_written + e.fwrite_ret s.iter
      (e.i2s_channel_read s.iter (bytes_to_read total s.bytes_written)).2.length :=
    Nat.mod_eq_of_lt (by omega)
  obtain ⟨h1, h2⟩ := h
  obtain ⟨h3, h4⟩ := fwrite_at_end s.f
    (e.i2s_channel_read s.iter (bytes_to_read total s.bytes_written)).2
    (e.fwrite_ret s.iter (e.i2s_channel_read s.iter
      (bytes_to_read total s.bytes_written)).2.length) h1 hwr
  by_cases hok : (e.i2s_channel_read s.iter (bytes_to_read total s.bytes_written)).1 = ESP_OK
  · by_cases hweq : e.fwrite_ret s.iter
        (e.i2s_channel_read s.iter (bytes_to_read total s.bytes_written)).2.length =
        (e.i2s_channel_read s.iter (bytes_to_read total s.bytes_written)).2.length
    · rw [stream_body_go e total s hok hweq]
      simp only [Appending, hmod]
      exact ⟨h3, by omega⟩
    · rw [stream_body_short e total s hok hweq]
      simp only [Appending, hmod]
      exact ⟨h3, by omega⟩
  · rw [stream_body_read_fail e total s hok]
    exact ⟨h1, h2⟩

theorem stream_loop_appending (e : AudioEnv) (total : Nat)
    (hr : ReadsBounded e) (hw : WritesBounded e) (ht : total < U32) :
    ∀ (fuel : Nat) (s : WavLoop), s.bytes_written ≤ total → s.ret = ESP_OK →
      Appending s → Appending (stream_loop e total fuel s) := by
  intro fuel
  induction fuel with
  | zero =>
    intro s _ _ h
    simp only [stream_loop]
    split <;> exact h
  | succ fuel ih =>
    intro s hle hret h
    simp only [stream_loop]
    split
    · rename_i hlt
      have hb := stream_body_appending e total s hr hw ht hlt h
      obtain ⟨h1, h2, _⟩ := stream_body_spec e total s hr hw ht hlt
      split
      · exact hb
      · rename_i hex
        exact ih _ h1 (h2 (by simpa using hex)) hb
    · exact h

/-- When the `fwrite` of the final `write_wav_header` call stores the whole
struct (and reads and writes stay within what was requested and offered), a
run that returns `ESP_OK` leaves at offset 0 the header for the final
`bytes_written`: payload-size field `bytes_written`, overall-size field
`36 + bytes_written`, derived sample count
`bytes_written / (channels * bytes per sample)`; when the placeholder was
stored whole as well, the file holds exactly `bytes_written` payload bytes
after the header. -/
theorem header_patched_on_success (e : AudioEnv) (fuel : Nat) (filename : String)
    (duration_ms : Nat) (r : WavResult) (hr : ReadsBounded e) (hw : WritesBounded e)
    (hh : 44 ≤ e.hdr_fwrite 1)
    (hrun : record_and_save_wav e fuel filename duration_ms = some r)
    (hok : r.ret = ESP_OK) :
    ∃ f, r.file = some f ∧
      f.data.take 44 = (wav_header_init r.bytes_written).bytes ∧
      data_size_field f.data = r.bytes_written ∧
      riff_size_field f.data = 36 + r.bytes_written ∧
      declared_samples f.data = r.bytes_written / (MIC_CHANNELS * (MIC_BITS_PER_SAMPLE / 8)) ∧
      (44 ≤ e.hdr_fwrite 0 → f.data.length = 44 + r.bytes_written) := by
  have ht := total_bytes_lt_U32 duration_ms
  have htl := total_bytes_le duration_ms
  simp only [record_and_save_wav] at hrun
  split at hrun
  · cases hrun
    exact absurd hok (show ¬ ESP_FAIL = ESP_OK by decide)
  · split at hrun
    · cases hrun
      exact absurd hok (show ¬ ESP_FAIL = ESP_OK by decide)
    · split at hrun
      · rename_i hen
        cases hrun
        exact absurd hok hen
      · rename_i hen
        have hen2 : e.i2s_channel_enable = ESP_OK := by simpa using hen
        split at hrun
        · cases hrun
        · cases hrun
          simp only at hok ⊢
          obtain ⟨hle, _⟩ := stream_loop_spec e _ hr hw ht fuel
            (stream_init (write_wav_header fopen_wb 0 (e.hdr_fwrite 0)) e.i2s_channel_enable)
            (Nat.zero_le _) hen2 rfl
          rw [if_pos hok]
          have hd := write_wav_header_data (stream_loop e (total_bytes duration_ms) fuel
            (stream_init (write_wav_header fopen_wb 0 (e.hdr_fwrite 0))
              e.i2s_channel_enable)).f (stream_loop e (total_bytes duration_ms) fuel
            (stream_init (write_wav_header fopen_wb 0 (e.hdr_fwrite 0))
              e.i2s_channel_enable)).bytes_written (e.hdr_fwrite 1) hh
          have hl := header_bytes_length (stream_loop e (total_bytes duration_ms) fuel
            (stream_init (write_wav_header fopen_wb 0 (e.hdr_fwrite 0))
              e.i2s_channel_enable)).bytes_written
          refine ⟨_, rfl, ?_, ?_, ?_, ?_, ?_⟩
          · rw [hd, List.take_left' hl]
          · rw [hd, data_size_field_header]
            exact Nat.mod_eq_of_lt (by omega)
          · rw [hd, riff_size_field_header]
            exact Nat.mod_eq_of_lt (by simp only [U32]; omega)
          · simp only [declared_samples]
            rw [hd, data_size_field_header, block_align_field_header,
              Nat.mod_eq_of_lt (by omega)]
            rfl
          · intro hh0
            obtain ⟨hph, hpd⟩ := placeholder_past_header (e.hdr_fwrite 0) hh0
            have happ := stream_loop_appending e _ hr hw ht fuel
              (stream_init (write_wav_header fopen_wb 0 (e.hdr_fwrite 0)) e.i2s_channel_enable)
              (Nat.zero_le _) hen2
              (by
                have hl0 := header_bytes_length 0
                have hp0 := write_wav_header_pos fopen_wb 0 (e.hdr_fwrite 0) hh0
                simp only [Appending, stream_init]
                rw [hpd, hl0, hp0]
                exact ⟨rfl, rfl⟩)
            obtain ⟨_, h2⟩ := happ
            rw [hd, List.length_append, hl, List.length_drop, h2]
            omega

theorem envGood_run : record_and_save_wav envGood 1 "aud00000.wav" 1 = some goodRun := by
  decide

theorem header_patched_on_success_witness :
    ReadsBounded envGood ∧ WritesBounded envGood ∧ 44 ≤ envGood.hdr_fwrite 1 ∧
    record_and_save_wav envGood 1 "aud00000.wav" 1 = some goodRun ∧ goodRun.ret = ESP_OK ∧
    ∃ f, goodRun.file = some f ∧
      f.data.take 44 = (wav_header_init goodRun.bytes_written).bytes ∧
      data_size_field f.data = goodRun.bytes_written ∧
      riff_size_field f.data = 36 + goodRun.bytes_written ∧
      declared_samples f.data
        = goodRun.bytes_written / (MIC_CHANNELS * (MIC_BITS_PER_SAMPLE / 8)) ∧
      (44 ≤ envGood.hdr_fwrite 0 → f.data.length = 44 + goodRun.bytes_written) :=
  ⟨envGood_reads_bounded, envGood_writes_bounded, by decide, envGood_run, by decide,
   header_patched_on_success envGood 1 "aud00000.wav" 1 goodRun envGood_reads_bounded
     envGood_writes_bounded (by decide) envGood_run (by decide)⟩

theorem envHdrLost_reads_bounded : ReadsBounded envHdrLost := by
  intro i n
  simp [envHdrLost, envGood]

theorem envHdrLost_writes_bounded : WritesBounded envHdrLost := by
  intro i n
  simp [envHdrLost, envGood]

/-- C2: `write_wav_header` discards the result of its `fwrite`, so a run can
return `ESP_OK` with a header that was not stored. In `envHdrLost` (reads and
writes within what was requested and offered, all 32 payload bytes of a
one-millisecond capture stored, the final header `fwrite` storing nothing)
`record_and_save_wav` returns `ESP_OK` with `bytes_written = 32`, and the
header at offset 0 of the file is still the placeholder: payload-size field 0
and overall-size field 36, not 32 and 68, and a derived sample count of 0, not
16. -/
theorem success_with_stale_header :
    ReadsBounded envHdrLost ∧ WritesBounded envHdrLost ∧
    record_and_save_wav envHdrLost 1 "aud00000.wav" 1 = some staleRun ∧
    staleRun.ret = ESP_OK ∧ staleRun.bytes_written = 32 ∧
    staleRun.file = some staleFile ∧ staleFile.data.length = 44 + 32 ∧
    data_size_field staleFile.data = 0 ∧ riff_size_field staleFile.data = 36 ∧
    declared_samples staleFile.data = 0 ∧
    data_size_field staleFile.data ≠ staleRun.bytes_written ∧
    riff_size_field staleFile.data ≠ 36 + staleRun.bytes_written ∧
    declared_samples staleFile.data
      ≠ staleRun.bytes_written / (MIC_CHANNELS * (MIC_BITS_PER_SAMPLE / 8)) :=
  ⟨envHdrLost_reads_bounded, envHdrLost_writes_bounded, by decide, by decide, by decide,
   by decide, by decide, by decide, by decide, by decide, by decide, by decide, by decide⟩

/-! ## Image capture -/

/-- C4: in every outcome of `capture_and_save_jpeg` the trace starts with the
`esp_camera_fb_get` call, the frames given back by `esp_camera_fb_return` are
exactly the frames acquired (the one frame once when a frame was delivered,
none when the call returned null), so the number of releases is 1 or 0
accordingly. -/
theorem frame_balance (e : CamEnv) (filename : String) :
    (capture_and_save_jpeg e filename).trace.head? = some (.fb_get e.esp_camera_fb_get) ∧
    acquired (capture_and_save_jpeg e filename).trace = e.esp_camera_fb_get.toList ∧
    released (capture_and_save_jpeg e filename).trace = e.esp_camera_fb_get.toList ∧
    releases (capture_and_save_jpeg e filename).trace
      = (if e.esp_camera_fb_get.isSome then 1 else 0) := by
  cases h : e.esp_camera_fb_get with
  | none => simp [capture_and_save_jpeg, h, acquired, released, releases]
  | some fb =>
    simp only [capture_and_save_jpeg, h]
    by_cases hopen : e.fopen_ok = true
    · by_cases hfmt : fb.format = PIXFORMAT_JPEG
      · by_cases hw : e.fwrite_ret = fb.len
        · simp [hopen, hfmt, hw, acquired, released, releases, ESP_OK]
        · simp [hopen, hfmt, hw, acquired, released, releases, ESP_OK]
      · by_cases hok : (fmt2jpg_cb e { f := fopen_wb, written := 0 }).1 = true
        · by_cases hz : (fmt2jpg_cb e { f := fopen_wb, written := 0 }).2.written = 0
          · simp [hopen, hfmt, hok, hz, acquired, released, releases, ESP_OK]
          · simp [hopen, hfmt, hok, hz, acquired, released, releases, ESP_OK]
        · simp [hopen, hfmt, hok, acquired, released, releases, ESP_OK, ESP_FAIL]
    · simp [hopen, acquired, released, releases]

/-- C5: for a frame already in JPEG format (its buffer holding `len` bytes),
the image file, when opened, receives the first `written` bytes of the frame
and nothing else; if `capture_and_save_jpeg` returns `ESP_OK` the file is
exactly the `len` bytes of the frame; and if fewer than `len` bytes were
written the function returns `ESP_FAIL`. -/
theorem passthrough_fidelity (e : CamEnv) (filename : String) (fb : camera_fb_t)
    (hget : e.esp_camera_fb_get = some fb) (hfmt : fb.format = PIXFORMAT_JPEG)
    (hlen : fb.len ≤ fb.buf.length) :
    (∀ f, (capture_and_save_jpeg e filename).file = some f →
      f.data = (fb.buf.take fb.len).take (capture_and_save_jpeg e filename).written) ∧
    ((capture_and_save_jpeg e filename).ret = ESP_OK →
      ∃ f, (capture_and_save_jpeg e filename).file = some f ∧
        f.data = fb.buf.take fb.len ∧ f.data.length = fb.len ∧
        (capture_and_save_jpeg e filename).written = fb.len) ∧
    ((capture_and_save_jpeg e filename).written < fb.len →
      (capture_and_save_jpeg e filename).ret = ESP_FAIL) := by
  have hl : (fb.buf.take fb.len).length = fb.len := by
    rw [List.length_take]; omega
  simp only [capture_and_save_jpeg, hget]
  by_cases hopen : e.fopen_ok = true
  · by_cases hw : e.fwrite_ret = fb.len
    · have ht : List.take fb.len (List.take fb.len fb.buf) = List.take fb.len fb.buf := by
        rw [List.take_take, Nat.min_self]
      simp [hopen, hfmt, hw, ESP_OK, fwrite, fopen_wb, ht, hl]
    · simp [hopen, hfmt, hw, ESP_OK, ESP_FAIL, fwrite, fopen_wb]
  · simp [hopen, ESP_OK, ESP_FAIL]

theorem passthrough_fidelity_witness :
    camJpeg.esp_camera_fb_get = some fbJpeg ∧ fbJpeg.format = PIXFORMAT_JPEG ∧
    fbJpeg.len ≤ fbJpeg.buf.length ∧
    (capture_and_save_jpeg camJpeg "img00000.jpg").ret = ESP_OK ∧
    ∃ f, (capture_and_save_jpeg camJpeg "img00000.jpg").file = some f ∧
      f.data = fbJpeg.buf.take fbJpeg.len ∧ f.data.length = fbJpeg.len ∧
      (capture_and_save_jpeg camJpeg "img00000.jpg").written = fbJpeg.len :=
  ⟨rfl, rfl, by decide, by decide,
   (passthrough_fidelity camJpeg "img00000.jpg" fbJpeg rfl rfl (by decide)).2.1 (by decide)⟩

/-! ## The scheduler loop -/

theorem dec_digits_small (fuel n : Nat) (h : n < 10) : dec_digits (fuel + 1) n = [Nat.digitChar n] := by
  simp [dec_digits, h]

theorem dec_digits_step (fuel n : Nat) (h : 10 ≤ n) :
    dec_digits (fuel + 1) n = dec_digits fuel (n / 10) ++ [Nat.digitChar (n % 10)] := by
  simp [dec_digits, Nat.not_lt.mpr h]

theorem fmt_05d_eq_pad5 (k : Nat) (hk : k ≤ 99999) : fmt_05d (k : Int) = pad5 k := by
  have hneg : ¬ ((k : Int) < 0) := by omega
  simp only [fmt_05d, Int.natAbs_ofNat, if_neg hneg, pad5]
  have z : Nat.digitChar 0 = '0' := rfl
  by_cases h1 : k < 10
  · have e4 : k / 10000 % 10 = 0 := by omega
    have e3 : k / 1000 % 10 = 0 := by omega
    have e2 : k / 100 % 10 = 0 := by omega
    have e1 : k / 10 % 10 = 0 := by omega
    have e0 : k % 10 = k := by omega
    rw [dec_digits_small _ _ h1, e4, e3, e2, e1, e0, z]
    rfl
  · by_cases h2 : k < 100
    · have e4 : k / 10000 % 10 = 0 := by omega
      have e3 : k / 1000 % 10 = 0 := by omega
      have e2 : k / 100 % 10 = 0 := by omega
      have e1 : k / 10 % 10 = k / 10 := by omega
      rw [dec_digits_step _ _ (by omega), dec_digits_small _ _ (by omega), e4, e3, e2, e1, z]
      rfl
    · by_cases h3 : k < 1000
      · have e4 : k / 10000 % 10 = 0 := by omega
        have e3 : k / 1000 % 10 = 0 := by omega
        have e2 : k / 100 % 10 = k / 10 / 10 := by omega
        have e1 : k / 10 % 10 = k / 10 % 10 := rfl
        rw [dec_digits_step _ _ (by omega), dec_digits_step _ _ (by omega),
          dec_digits_small _ _ (by omega), e4, e3, e2, z]
        rfl
      · by_cases h4 : k < 10000
        · have e4 : k / 10000 % 10 = 0 := by omega
          have e3 : k / 1000 % 10 = k / 10 / 10 / 10 := by omega
          have e2 : k / 100 % 10 = k / 10 / 10 % 10 := by omega
          rw [dec_digits_step _ _ (by omega), dec_digits_step _ _ (by omega),
            dec_digits_step _ _ (by omega), dec_digits_small _ _ (by omega), e4, e3, e2, z]
          rfl
        · have e4 : k / 10000 % 10 = k / 10 / 10 / 10 / 10 := by omega
          have e3 : k / 1000 % 10 = k / 10 / 10 / 10 % 10 := by omega
          have e2 : k / 100 % 10 = k / 10 / 10 % 10 := by omega
          rw [dec_digits_step _ _ (by omega), dec_digits_step _ _ (by omega),
            dec_digits_step _ _ (by omega), dec_digits_step _ _ (by omega),
            dec_digits_small _ _ (by omega), e4, e3, e2]
          rfl

theorem snprintf_of_short (size : Nat) (s : String) (h : s.length < size) :
    snprintf size s = s := by
  simp only [snprintf]
  rw [List.take_of_length_le (by simp only [String.length] at h; simp only [String.toList]; omega)]
  rfl

theorem pad5_length (k : Nat) : (pad5 k).length = 5 := rfl

theorem img_name_eq (k : Nat) (hk : k ≤ 99999) :
    img_name (k : Int) = "img" ++ pad5 k ++ ".jpg" := by
  rw [img_name, fmt_05d_eq_pad5 k hk]
  apply snprintf_of_short
  simp only [String.length_append, pad5_length]
  decide

theorem aud_name_eq (k : Nat) (hk : k ≤ 99999) :
    aud_name (k : Int) = "aud" ++ pad5 k ++ ".wav" := by
  rw [aud_name, fmt_05d_eq_pad5 k hk]
  apply snprintf_of_short
  simp only [String.length_append, pad5_length]
  decide

theorem cycle_next (e : CycleEnv) (c c1 : Int) (h : (cycle e c).2 = some c1) : c1 = c + 1 := by
  simp only [cycle] at h
  split at h
  · cases h
  · simp only [Option.some.injEq] at h
    exact h.symm

theorem cycle_head (e : CycleEnv) (c : Int) :
    (cycle e c).1.head? = some (.capture_call (img_name c)) := by
  simp only [cycle]
  split <;> rfl

theorem cycle_take_two (e : CycleEnv) (c : Int) :
    (cycle e c).1.take 2 =
      [.capture_call (img_name c),
       .capture_ret (capture_and_save_jpeg e.cam (img_name c)).ret] := by
  simp only [cycle]
  split <;> rfl

theorem cycle_record_call (e : CycleEnv) (c : Int) :
    SchedEvent.record_call (aud_name c) 3000 ∈ (cycle e c).1 := by
  simp only [cycle, add_sub_cancel_right]
  split <;> simp

theorem cycle_returns (e : CycleEnv) (c : Int)
    (h : (record_and_save_wav e.mic e.fuel (aud_name c) 3000).isSome = true) :
    (cycle e c).2 = some (c + 1) ∧ (cycle e c).1.getLast? = some (.delay 5000) := by
  obtain ⟨r, hr⟩ := Option.isSome_iff_exists.mp h
  simp only [cycle, add_sub_cancel_right, hr]
  refine ⟨trivial, ?_⟩
  rw [List.getLast?_concat]

theorem app_main_loop_get (envs : Nat → CycleEnv) :
    ∀ (n j : Nat) (c : Int) (i : Nat) (t : List SchedEvent),
      (app_main_loop envs n j c)[i]? = some t → t = (cycle (envs (j + i)) (c + i)).1 := by
  intro n
  induction n with
  | zero =>
    intro j c i t h
    simp [app_main_loop] at h
  | succ n ih =>
    intro j c i t h
    simp only [app_main_loop] at h
    cases i with
    | zero =>
      simp only [List.getElem?_cons_zero, Option.some.injEq] at h
      simpa using h.symm
    | succ i =>
      simp only [List.getElem?_cons_succ] at h
      cases hc : (cycle (envs j) c).2 with
      | none =>
        rw [hc] at h
        simp at h
      | some c1 =>
        rw [hc] at h
        simp only at h
        have h1 := cycle_next _ _ _ hc
        have h2 := ih (j + 1) c1 i t h
        rw [h2, h1]
        have e1 : j + 1 + i = j + (i + 1) := by omega
        have e2 : c + 1 + (i : Int) = c + ((i + 1 : Nat) : Int) := by push_cast; ring
        rw [e1, e2]

theorem app_main_loop_reaches (envs : Nat → CycleEnv) :
    ∀ (n j : Nat) (c : Int) (i : Nat), i < n →
      (∀ m, m < i →
        (record_and_save_wav (envs (j + m)).mic (envs (j + m)).fuel (aud_name (c + m))
          3000).isSome = true) →
      (app_main_loop envs n j c)[i]? = some (cycle (envs (j + i)) (c + i)).1 := by
  intro n
  induction n with
  | zero =>
    intro j c i hi
    omega
  | succ n ih =>
    intro j c i hi hret
    simp only [app_main_loop]
    cases i with
    | zero => simp
    | succ i =>
      simp only [List.getElem?_cons_succ]
      have h0 := hret 0 (by omega)
      simp only [Nat.add_zero, Nat.cast_zero, add_zero] at h0
      obtain ⟨hn, _⟩ := cycle_returns (envs j) c h0
      rw [hn]
      simp only
      have h2 := ih (j + 1) (c + 1) i (by omega) (by
        intro m hm
        have := hret (m + 1) (by omega)
        have e1 : j + 1 + m = j + (m + 1) := by omega
        have e2 : c + 1 + (m : Int) = c + ((m + 1 : Nat) : Int) := by push_cast; ring
        rw [e1, e2]
        exact this)
      rw [h2]
      have e1 : j + 1 + i = j + (i + 1) := by omega
      have e2 : c + 1 + (i : Int) = c + ((i + 1 : Nat) : Int) := by push_cast; ring
      rw [e1, e2]

/-- C8: for every cycle `k` up to 99999 counted from 0, the `k`-th iteration of
the scheduler loop (when the loop gets that far) calls the image step with
"img" + `k` zero-padded to five digits + ".jpg" and the audio step with "aud" +
the same five digits + ".wav"; each completed iteration advances the counter by
exactly one; for `k = 7` the names are img00007.jpg and aud00007.wav. -/
theorem cycle_filenames (envs : Nat → CycleEnv) (n k : Nat) (t : List SchedEvent)
    (hk : k ≤ 99999) (ht : (app_main_loop envs n 0 0)[k]? = some t) :
    t.head? = some (.capture_call ("img" ++ pad5 k ++ ".jpg")) ∧
    SchedEvent.record_call ("aud" ++ pad5 k ++ ".wav") 3000 ∈ t ∧
    (∀ (e : CycleEnv) (c c1 : Int), (cycle e c).2 = some c1 → c1 = c + 1) ∧
    "img" ++ pad5 7 ++ ".jpg" = "img00007.jpg" ∧ "aud" ++ pad5 7 ++ ".wav" = "aud00007.wav" := by
  have h := app_main_loop_get envs n 0 0 k t ht
  simp only [Nat.zero_add, zero_add] at h
  refine ⟨?_, ?_, cycle_next, by decide, by decide⟩
  · rw [h, cycle_head, img_name_eq k hk]
  · rw [h, ← aud_name_eq k hk]
    exact cycle_record_call _ _

theorem idle_loop_seventh : (app_main_loop (fun _ => cycIdle) 8 0 0)[7]? = some idleTrace7 := by
  decide

theorem cycle_filenames_witness :
    7 ≤ 99999 ∧ (app_main_loop (fun _ => cycIdle) 8 0 0)[7]? = some idleTrace7 ∧
    idleTrace7.head? = some (.capture_call ("img" ++ pad5 7 ++ ".jpg")) ∧
    SchedEvent.record_call ("aud" ++ pad5 7 ++ ".wav") 3000 ∈ idleTrace7 :=
  ⟨by decide, idle_loop_seventh,
   (cycle_filenames (fun _ => cycIdle) 8 7 idleTrace7 (by decide) idle_loop_seventh).1,
   (cycle_filenames (fun _ => cycIdle) 8 7 idleTrace7 (by decide) idle_loop_seventh).2.1⟩

/-- C9: in every cycle `K` that the loop reaches (the audio steps of the
earlier cycles having returned), whatever `capture_and_save_jpeg` returns,
`record_and_save_wav` is invoked in cycle `K` with the cycle's audio name and
3000 ms; and when that audio step returns, with whatever code, the cycle ends
with the 5000 ms delay and cycle `K + 1` starts with the counter advanced by
one (the counter staying below `INT_MAX`). -/
theorem cycle_independence (envs : Nat → CycleEnv) (n K : Nat) (hn : K + 1 < n)
    (hov : K + 1 < 2 ^ 31)
    (hprev : ∀ j, j < K →
      (record_and_save_wav (envs j).mic (envs j).fuel (aud_name j) 3000).isSome = true) :
    ∃ t, (app_main_loop envs n 0 0)[K]? = some t ∧
      t.take 2 = [.capture_call (img_name K),
                  .capture_ret (capture_and_save_jpeg (envs K).cam (img_name K)).ret] ∧
      SchedEvent.record_call (aud_name K) 3000 ∈ t ∧
      ((record_and_save_wav (envs K).mic (envs K).fuel (aud_name K) 3000).isSome = true →
        t.getLast? = some (.delay 5000) ∧
        ∃ t1, (app_main_loop envs n 0 0)[K + 1]? = some t1 ∧
          t1.head? = some (.capture_call (img_name ((K : Int) + 1)))) := by
  have h := app_main_loop_reaches envs n 0 0 K (by omega) (by
    intro m hm
    simpa using hprev m hm)
  simp only [Nat.zero_add, zero_add] at h
  refine ⟨_, h, cycle_take_two _ _, cycle_record_call _ _, ?_⟩
  intro hK
  refine ⟨(cycle_returns _ _ hK).2, ?_⟩
  have h1 := app_main_loop_reaches envs n 0 0 (K + 1) hn (by
    intro m hm
    rcases Nat.lt_succ_iff_lt_or_eq.mp hm with hlt | heq
    · simpa using hprev m hlt
    · subst heq
      simpa using hK)
  simp only [Nat.zero_add, zero_add] at h1
  refine ⟨_, h1, ?_⟩
  rw [cycle_head]
  push_cast
  rfl

theorem cycle_independence_witness :
    (1 : Nat) + 1 < 3 ∧
    ∃ t, (app_main_loop (fun _ => cycIdle) 3 0 0)[1]? = some t ∧
      t.take 2 = [.capture_call (img_name (1 : Nat)),
                  .capture_ret (capture_and_save_jpeg cycIdle.cam (img_name (1 : Nat))).ret] ∧
      SchedEvent.record_call (aud_name (1 : Nat)) 3000 ∈ t ∧
      ((record_and_save_wav cycIdle.mic cycIdle.fuel (aud_name (1 : Nat)) 3000).isSome = true →
        t.getLast? = some (.delay 5000) ∧
        ∃ t1, (app_main_loop (fun _ => cycIdle) 3 0 0)[1 + 1]? = some t1 ∧
          t1.head? = some (.capture_call (img_name (((1 : Nat) : Int) + 1)))) :=
  ⟨by decide,
   cycle_independence (fun _ => cycIdle) 3 1 (by decide) (by decide) (fun _ _ => rfl)⟩

end FieldNode
